import Mathlib

/-!
# Shallow embedding of the Twilio JNI glue layer

This file embeds the two JNI translation units of the repository —
`com_twilio_conversations_impl_ConversationsClientImpl.cpp` and
`com_twilio_video_Room.cpp` — as pure Lean functions, and proves the
marshalling and handle-lifecycle properties stated about them.

Modelling conventions:
* A `jlong` native handle is a `Nat`; the value `0` is the null handle
  (`nullptr` after `reinterpret_cast`).
* A boundary function that unconditionally dereferences a handle is embedded
  as an `Option`-valued function: `none` models the undefined behaviour of a
  null-pointer dereference, `some` the normal return.
* Side effects on the native SDK (factory calls, destroy/delete calls,
  observer registration) are made observable as an ordered trace of events
  returned by the embedded function.
* Java object references reached through JNI callbacks (the access manager)
  are embedded as `Option` values: `none` models a reference whose native
  handle is `0`/null.
-/

/-- The access-manager object reached via `getNativeAccessMgrFromJava`: the
only part of it this layer reads is its token string (`getToken`). -/
structure AccessManager where
  token : String
deriving DecidableEq

/-- `TSCOptions` is a `std::map<std::string, std::string>`; we embed it as an
association list with no duplicate keys, written through `optWrite`. -/
abbrev TSCOptions := List (String × String)

/-- `options[key] = value` on a `std::map`: overwrite the entry for `key` if
present, otherwise append a new entry. -/
def optWrite (m : TSCOptions) (k v : String) : TSCOptions :=
  if m.any (fun p => p.1 = k) then
    m.map (fun p => if p.1 = k then (k, v) else p)
  else
    m ++ [(k, v)]

/-- `map.find(key)` projected to the mapped value. -/
def optLookup (m : TSCOptions) (k : String) : Option String :=
  (m.find? (fun p => p.1 = k)).map Prod.snd

/-- `GetObjectArrayElement`: reading the array out of bounds is undefined
behaviour at the JNI level; the embedding totalises it with `""`, and the
marshalling loop separately records every index it reads so that
out-of-bounds reads stay observable. -/
def GetObjectArrayElement (arr : List String) (i : Nat) : String :=
  arr.getD i ""

/-- The `while (i < size)` marshalling loop of `createEndpoint`: each
iteration reads the elements at indices `i` and `i + 1`, stores
`options[key] = value`, and advances `i` by two.  Returns the final options
map together with the ordered list of array indices the loop read. -/
def marshalLoop (arr : List String) (i : Nat) (options : TSCOptions) :
    TSCOptions × List Nat :=
  if i < arr.length then
    let rest := marshalLoop arr (i + 2)
      (optWrite options (GetObjectArrayElement arr i) (GetObjectArrayElement arr (i + 1)))
    (rest.1, i :: (i + 1) :: rest.2)
  else
    (options, [])
termination_by arr.length - i
decreasing_by omega

/-- The options map `createEndpoint` constructs from the flattened array. -/
def buildOptions (arr : List String) : TSCOptions :=
  (marshalLoop arr 0 []).1

/-- The array indices the marshalling loop reads. -/
def marshalReads (arr : List String) : List Nat :=
  (marshalLoop arr 0 []).2

/-- Observable steps of `createEndpoint`, in program order. -/
inductive CreateEvent
  | optionsConstructed
  | factoryInvoked (options : TSCOptions)
deriving DecidableEq

/-- `Java_com_twilio_conversations_impl_ConversationsClientImpl_createEndpoint`:
the source builds `options` from the flattened array first, then checks
`nativeEndpointObserver` for null, then obtains the access manager (null when
its `getNativeHandle` is `0`), then checks it for null and its token for
emptiness; each failed check logs and returns `0`, raising no exception.  On
success it allocates a fresh `TSCEndpointPtr` (`freshHandle`; a real `new`
never yields the null handle) and invokes
`TSCSDK::instance()->createEndpoint(options, accessManager, *endpointObserver)`.
Returns the handle value together with the event trace. -/
def createEndpoint (j_accessMgr : Option AccessManager) (optionsArray : List String)
    (nativeEndpointObserver : Nat) (freshHandle : Nat) : Nat × List CreateEvent :=
  let options := buildOptions optionsArray
  if nativeEndpointObserver = 0 then
    (0, [CreateEvent.optionsConstructed])
  else
    match j_accessMgr with
    | none => (0, [CreateEvent.optionsConstructed])
    | some accessManager =>
      if accessManager.token = "" then
        (0, [CreateEvent.optionsConstructed])
      else
        (freshHandle, [CreateEvent.optionsConstructed, CreateEvent.factoryInvoked options])

/-- Native calls the endpoint entry points forward to. -/
inductive EndpointOp
  | registerEndpoint (b1 b2 : Bool)
  | unregisterEndpoint
deriving DecidableEq

/-- `Java_com_twilio_conversations_impl_ConversationsClientImpl_listen`:
dereferences the endpoint handle with no null check
(`reinterpret_cast<TSCEndpointPtr *>(nativeEndpoint)->get()->registerEndpoint(true, true)`),
so a non-null handle is required for defined behaviour; on a valid handle it
forwards `registerEndpoint(true, true)` and returns `void` (no failure
signal). -/
def ConversationsClientImpl_listen (nativeEndpoint : Nat) : Option (List EndpointOp) :=
  if nativeEndpoint = 0 then none
  else some [EndpointOp.registerEndpoint true true]

/-- Observable steps of `freeNativeHandle`, in program order. -/
inductive FreeEvent
  | destroyEndpoint
  | resetSharedPtr
  | deleteHandle
deriving DecidableEq

/-- `Java_com_twilio_conversations_impl_ConversationsClientImpl_freeNativeHandle`:
if the handle is non-null it calls `TSCSDK::instance()->destroyEndpoint(*endpoint)`,
then `endpoint->reset()`, then `delete endpoint`; a null handle does nothing.
The behaviour is a pure function of the handle value: the layer keeps no
record of which handles were already freed. -/
def freeNativeHandle (nativeEndpoint : Nat) : List FreeEvent :=
  if nativeEndpoint = 0 then []
  else [FreeEvent.destroyEndpoint, FreeEvent.resetSharedPtr, FreeEvent.deleteHandle]

/-- Native calls the room entry points forward to. -/
inductive RoomOp
  | disconnect
  | getStats (statsObserver : Nat)
deriving DecidableEq

/-- `Java_com_twilio_video_Room_nativeDisconnect`: casts the handle and calls
`room_context->room->disconnect()` with no null check; `none` models the
null-pointer dereference on a zero handle. -/
def nativeDisconnect (j_native_handle : Nat) : Option RoomOp :=
  if j_native_handle = 0 then none
  else some RoomOp.disconnect

/-- `Java_com_twilio_video_Room_nativeGetStats`: casts both handles and calls
`room_context->room->getStats(android_stats_observer)` with no null check on
the room context; `none` models the null-pointer dereference on a zero room
handle. -/
def nativeGetStats (j_native_room_context j_native_stats_observer : Nat) : Option RoomOp :=
  if j_native_room_context = 0 then none
  else some (RoomOp.getStats j_native_stats_observer)

/-- Observable steps of `Room.nativeRelease`. -/
inductive RoomReleaseEvent
  | deleteRoomContext
deriving DecidableEq

/-- `Java_com_twilio_video_Room_nativeRelease`: returns without any native
call when the handle is null, otherwise `delete room_context`. -/
def Room_nativeRelease (j_native_handle : Nat) : List RoomReleaseEvent :=
  if j_native_handle = 0 then []
  else [RoomReleaseEvent.deleteRoomContext]

/-- Modelled from the spec: the adapter classes `AndroidRoomObserver` and
`AndroidStatsObserver` (headers `android_room_observer.h` and
`android_stats_observer.h`) are not part of this repository's sources.  Per
the spec, the adapter bridges native callbacks to a managed listener and
carries a mark set by `setObserverDeleted` that invalidates the backing
managed reference; callback dispatch consults the mark before calling into
the managed listener. -/
structure ObserverAdapter where
  observerDeleted : Bool
deriving DecidableEq

/-- A freshly constructed adapter (`new AndroidRoomObserver(env, object)` or
`new AndroidStatsObserver(env, object)`): not yet marked deleted. -/
def newObserverAdapter : ObserverAdapter :=
  { observerDeleted := false }

/-- `setObserverDeleted`: mark the backing managed reference invalidated. -/
def setObserverDeleted (a : ObserverAdapter) : ObserverAdapter :=
  { a with observerDeleted := true }

/-- Modelled from the spec: a native callback dispatch arriving at the
adapter; it calls back into the managed listener (result `true`) only when
the adapter has not been marked deleted. -/
def dispatchCallback (a : ObserverAdapter) : Bool :=
  !a.observerDeleted

/-- Observable steps of the listener release operations, in program order. -/
inductive ListenerEvent
  | setObserverDeletedCall
  | deleteAdapter
deriving DecidableEq

/-- `Java_com_twilio_video_Room_00024InternalRoomListenerHandle_nativeCreate`:
wraps the managed listener in a fresh adapter and returns
`jlongFromPointer` of the `new`-allocated adapter (`freshHandle`; a real
`new` never yields the null handle). -/
def InternalRoomListenerHandle_nativeCreate (freshHandle : Nat) : Nat × ObserverAdapter :=
  (freshHandle, newObserverAdapter)

/-- `Java_com_twilio_video_Room_00024InternalStatsListenerHandle_nativeCreate`:
symmetric to the room-listener create. -/
def InternalStatsListenerHandle_nativeCreate (freshHandle : Nat) : Nat × ObserverAdapter :=
  (freshHandle, newObserverAdapter)

/-- `Java_com_twilio_video_Room_00024InternalRoomListenerHandle_nativeRelease`:
returns without any native call when the handle is null; otherwise calls
`setObserverDeleted()` on the adapter and then `delete`s it.  Returns the
event trace and the adapter state as of the `delete`.  Like
`freeNativeHandle`, the trace is a pure function of the handle value: no
record of already-freed handles is kept. -/
def InternalRoomListenerHandle_nativeRelease (nativeHandle : Nat) (a : ObserverAdapter) :
    List ListenerEvent × ObserverAdapter :=
  if nativeHandle = 0 then ([], a)
  else ([ListenerEvent.setObserverDeletedCall, ListenerEvent.deleteAdapter],
        setObserverDeleted a)

/-- `Java_com_twilio_video_Room_00024InternalStatsListenerHandle_nativeRelease`:
symmetric to the room-listener release. -/
def InternalStatsListenerHandle_nativeRelease (nativeHandle : Nat) (a : ObserverAdapter) :
    List ListenerEvent × ObserverAdapter :=
  if nativeHandle = 0 then ([], a)
  else ([ListenerEvent.setObserverDeletedCall, ListenerEvent.deleteAdapter],
        setObserverDeleted a)

/-- Specification-side view of the flattened option array: the list of
(even-indexed key, following odd-indexed value) pairs, in order.  Used to
state what the constructed map should contain. -/
def toPairs : List String → List (String × String)
  | k :: v :: rest => (k, v) :: toPairs rest
  | _ => []

/-- Left fold writing a list of pairs into an options map, the
specification-side counterpart of the marshalling loop. -/
def optFold (opts : TSCOptions) (ps : List (String × String)) : TSCOptions :=
  ps.foldl (fun m p => optWrite m p.1 p.2) opts

/-- The keys of a pair list. -/
def pairKeys (ps : List (String × String)) : List String :=
  ps.map Prod.fst

/-! ## Helper lemmas -/

theorem marshalLoop_reads_lt (arr : List String) (i : Nat) (opts : TSCOptions) :
    (arr.length - i) % 2 = 0 → ∀ j ∈ (marshalLoop arr i opts).2, j < arr.length := by
  induction i, opts using marshalLoop.induct arr with
  | case1 i opts h ih =>
    intro hev j hj
    rw [marshalLoop] at hj
    simp only [if_pos h, List.mem_cons] at hj
    rcases hj with rfl | rfl | hj
    · exact h
    · omega
    · exact ih (by omega) j hj
  | case2 i opts h =>
    intro hev j hj
    rw [marshalLoop] at hj
    simp only [if_neg h] at hj
    simp at hj

theorem marshalLoop_reads_oob (arr : List String) (i : Nat) (opts : TSCOptions) :
    i < arr.length → (arr.length - i) % 2 = 1 →
    arr.length ∈ (marshalLoop arr i opts).2 := by
  induction i, opts using marshalLoop.induct arr with
  | case1 i opts h ih =>
    intro _ hodd
    rw [marshalLoop]
    simp only [if_pos h, List.mem_cons]
    by_cases hlast : arr.length = i + 1
    · right; left; omega
    · right; right; exact ih (by omega) (by omega)
  | case2 i opts h =>
    intro hi _
    exact absurd hi h

theorem marshalLoop_eq_fold (arr : List String) (i : Nat) (opts : TSCOptions) :
    (arr.length - i) % 2 = 0 →
    (marshalLoop arr i opts).1 = optFold opts (toPairs (arr.drop i)) := by
  induction i, opts using marshalLoop.induct arr with
  | case1 i opts h ih =>
    intro hev
    have hi1 : i + 1 < arr.length := by omega
    have hdrop : arr.drop i = arr[i] :: arr[i+1] :: arr.drop (i + 2) := by
      rw [List.drop_eq_getElem_cons (by omega), List.drop_eq_getElem_cons hi1]
    rw [marshalLoop]
    simp only [if_pos h]
    rw [hdrop]
    have hk : GetObjectArrayElement arr i = arr[i] := by
      simp [GetObjectArrayElement, List.getD_eq_getElem?_getD, List.getElem?_eq_getElem (by omega : i < arr.length)]
    have hv : GetObjectArrayElement arr (i+1) = arr[i+1] := by
      simp [GetObjectArrayElement, List.getD_eq_getElem?_getD, List.getElem?_eq_getElem hi1]
    rw [toPairs]
    rw [hk, hv] at ih ⊢
    rw [ih (by omega)]
    rfl
  | case2 i opts h =>
    intro hev
    rw [marshalLoop]
    simp only [if_neg h]
    rw [List.drop_eq_nil_of_le (by omega)]
    rfl

theorem optLookup_optWrite_self (m : TSCOptions) (k v : String) :
    optLookup (optWrite m k v) k = some v := by
  unfold optWrite optLookup
  split
  · rename_i hany
    rw [List.any_eq_true] at hany
    obtain ⟨p, hp, hpk⟩ := hany
    simp only [decide_eq_true_eq] at hpk
    induction m with
    | nil => simp at hp
    | cons q m ihm =>
      by_cases hq : q.1 = k
      · simp [List.find?, hq]
      · rcases List.mem_cons.mp hp with rfl | hp'
        · exact absurd hpk hq
        · simp only [List.map_cons, if_neg hq, List.find?]
          rw [show (decide (q.1 = k)) = false from by simp [hq]]
          exact ihm hp'
  · rw [List.find?_append]
    have h1 : m.find? (fun p => decide (p.1 = k)) = none := by
      rename_i hany
      rw [List.find?_eq_none]
      intro p hp
      simp only [decide_eq_true_eq]
      intro hpk
      exact hany (List.any_eq_true.mpr ⟨p, hp, by simp [hpk]⟩)
    simp [h1, List.find?]

theorem optLookup_optWrite_ne (m : TSCOptions) (k v k' : String) (hne : k' ≠ k) :
    optLookup (optWrite m k v) k' = optLookup m k' := by
  unfold optWrite optLookup
  split
  · rw [List.find?_map]
    have hpred : ((fun p => decide (p.1 = k')) ∘ fun p => if p.1 = k then (k, v) else p)
        = fun (p : String × String) => decide (p.1 = k') := by
      funext p
      by_cases hp : p.1 = k
      · simp [Function.comp, hp]
      · simp [Function.comp, hp]
    rw [hpred]
    cases hf : m.find? (fun p => decide (p.1 = k')) with
    | none => simp
    | some q =>
      have hq : q.1 = k' := by simpa using List.find?_some hf
      have hqk : ¬ q.1 = k := by rw [hq]; exact hne
      simp [hqk]
  · rw [List.find?_append]
    cases hf : m.find? (fun p => decide (p.1 = k')) with
    | some q => simp [hf]
    | none =>
      have hkv : ¬ (((k, v) : String × String).1 = k') := fun h => hne (by simpa using h.symm)
      have h1 : List.find? (fun p => decide (p.1 = k')) [(k, v)] = none := by
        simp [hkv]
      simp [hf, h1]

theorem optWrite_length (m : TSCOptions) (k v : String) :
    (optWrite m k v).length =
      if m.any (fun p => p.1 = k) then m.length else m.length + 1 := by
  unfold optWrite
  split <;> simp_all

theorem optLookup_eq_none_iff (m : TSCOptions) (k : String) :
    optLookup m k = none ↔ m.any (fun p => p.1 = k) = false := by
  simp [optLookup, List.find?_eq_none, List.any_eq_false]

theorem optFold_lookup (ps : List (String × String)) (opts : TSCOptions) (k : String) :
    optLookup (optFold opts ps) k =
      match ps.reverse.find? (fun p => p.1 = k) with
      | some p => some p.2
      | none => optLookup opts k := by
  induction ps generalizing opts with
  | nil => simp [optFold]
  | cons p ps ih =>
    show optLookup (optFold (optWrite opts p.1 p.2) ps) k = _
    rw [ih]
    simp only [List.reverse_cons, List.find?_append]
    cases hf : ps.reverse.find? (fun q => decide (q.1 = k)) with
    | some q => simp [hf]
    | none =>
      simp only [hf, Option.none_or]
      by_cases hpk : p.1 = k
      · subst hpk
        simp [List.find?, optLookup_optWrite_self]
      · have h1 : List.find? (fun q => decide (q.1 = k)) [p] = none := by
          simp [hpk]
        rw [h1]
        simp [optLookup_optWrite_ne opts p.1 p.2 k (fun h => hpk h.symm)]

theorem optFold_length_nodup (ps : List (String × String)) :
    ∀ (opts : TSCOptions), (pairKeys ps).Nodup →
    (∀ p ∈ ps, optLookup opts p.1 = none) →
    (optFold opts ps).length = opts.length + ps.length := by
  induction ps with
  | nil => intro opts _ _; simp [optFold]
  | cons p ps ih =>
    intro opts hnd hdisj
    simp only [pairKeys, List.map_cons, List.nodup_cons] at hnd
    have hkey : p.1 ∉ ps.map Prod.fst := hnd.1
    have hnotin : opts.any (fun q => q.1 = p.1) = false :=
      (optLookup_eq_none_iff opts p.1).mp (hdisj p (List.mem_cons_self p ps))
    have hlen : (optWrite opts p.1 p.2).length = opts.length + 1 := by
      rw [optWrite_length, hnotin]; simp
    have hdisj2 : ∀ q ∈ ps, optLookup (optWrite opts p.1 p.2) q.1 = none := by
      intro q hq
      have hqne : q.1 ≠ p.1 := fun heq => hkey (heq ▸ List.mem_map_of_mem Prod.fst hq)
      rw [optLookup_optWrite_ne opts p.1 p.2 q.1 hqne]
      exact hdisj q (List.mem_cons_of_mem p hq)
    show (optFold (optWrite opts p.1 p.2) ps).length = _
    rw [ih (optWrite opts p.1 p.2) hnd.2 hdisj2, hlen]
    simp only [List.length_cons]
    omega

theorem toPairs_length : ∀ (arr : List String), arr.length % 2 = 0 →
    (toPairs arr).length = arr.length / 2
  | [], _ => rfl
  | [x], h => by simp at h
  | k :: v :: rest, h => by
    have hr : rest.length % 2 = 0 := by
      simp only [List.length_cons] at h; omega
    simp only [toPairs, List.length_cons, toPairs_length rest hr]
    omega

theorem toPairs_getD : ∀ (arr : List String) (j : Nat), 2 * j + 1 < arr.length →
    (toPairs arr).getD j ("", "") = (arr.getD (2 * j) "", arr.getD (2 * j + 1) "")
  | [], j, h => by simp at h
  | [x], j, h => by simp at h
  | k :: v :: rest, 0, h => by simp [toPairs]
  | k :: v :: rest, j + 1, h => by
    have hr : 2 * j + 1 < rest.length := by
      simp only [List.length_cons] at h; omega
    have ihj := toPairs_getD rest j hr
    have h3 : 2 * (j + 1) + 1 = (2 * j + 1) + 1 + 1 := by omega
    have h2 : 2 * (j + 1) = (2 * j) + 1 + 1 := by omega
    rw [h3, h2]
    simp only [toPairs, List.getD_cons_succ]
    exact ihj

theorem buildOptions_eq_fold (arr : List String) (heven : arr.length % 2 = 0) :
    buildOptions arr = optFold [] (toPairs arr) := by
  unfold buildOptions
  have h := marshalLoop_eq_fold arr 0 [] (by simpa using heven)
  simpa using h

theorem createEndpoint_invalid_input (mgr : Option AccessManager) (arr : List String)
    (obs fresh : Nat)
    (h : obs = 0 ∨ mgr = none ∨ (∃ am, mgr = some am ∧ am.token = "")) :
    createEndpoint mgr arr obs fresh = (0, [CreateEvent.optionsConstructed]) := by
  unfold createEndpoint
  by_cases hobs : obs = 0
  · simp [hobs]
  · rw [if_neg hobs]
    cases mgr with
    | none => simp
    | some am =>
      have htok : am.token = "" := by
        rcases h with h | h | ⟨am2, heq, htok⟩
        · exact absurd h hobs
        · exact absurd h (by simp)
        · cases heq; exact htok
      simp [htok]

theorem createEndpoint_trace_head (mgr : Option AccessManager) (arr : List String)
    (obs fresh : Nat) :
    ((createEndpoint mgr arr obs fresh).2).head? = some CreateEvent.optionsConstructed := by
  unfold createEndpoint
  by_cases hobs : obs = 0
  · simp [hobs]
  · rw [if_neg hobs]
    cases mgr with
    | none => simp
    | some am => by_cases htok : am.token = "" <;> simp [htok]

/-! ## Claims -/

/-- C1: for every call to `createEndpoint` in which the observer handle is
null, the access-manager reference is null, or the access manager's token is
the empty string, the function returns the sentinel handle `0`, returns
normally (the embedding is a total function, so no exception crosses the
boundary), and the native SDK factory `TSCSDK::instance()->createEndpoint` is
not invoked. -/
theorem createEndpoint_invalid_returns_null_no_factory (mgr : Option AccessManager)
    (arr : List String) (obs fresh : Nat)
    (h : obs = 0 ∨ mgr = none ∨ (∃ am, mgr = some am ∧ am.token = "")) :
    (createEndpoint mgr arr obs fresh).1 = 0 ∧
    ∀ opts, CreateEvent.factoryInvoked opts ∉ (createEndpoint mgr arr obs fresh).2 := by
  rw [createEndpoint_invalid_input mgr arr obs fresh h]
  simp

/-- Witness for C1: a concrete call with a null observer handle. -/
theorem createEndpoint_invalid_returns_null_no_factory_witness :
    (createEndpoint (some ⟨"tok"⟩) ["a", "1"] 0 5).1 = 0 ∧
    ∀ opts, CreateEvent.factoryInvoked opts ∉ (createEndpoint (some ⟨"tok"⟩) ["a", "1"] 0 5).2 :=
  createEndpoint_invalid_returns_null_no_factory (some ⟨"tok"⟩) ["a", "1"] 0 5 (Or.inl rfl)

/-- C2 counterexample: on the even-length array `["a","1","a","2"]` the
constructed mapping retains only the last write for the duplicated key `"a"`,
so it holds 1 entry, not `length/2 = 2`; the claim's entry count is false
whenever a key repeats. -/
theorem buildOptions_entry_count_counterexample :
    ¬ ((buildOptions ["a", "1", "a", "2"]).length = ["a", "1", "a", "2"].length / 2) := by
  rw [buildOptions_eq_fold _ (by decide)]
  decide

/-- C2 (amended): for every flattened option array of even length, the
constructed mapping is written from the (even-indexed key, odd-indexed value)
pairs in order with last write winning — looking up any key yields the value
of its last pair — and it contains exactly `length/2` entries when the
even-indexed keys are pairwise distinct (with duplicate keys it keeps one
entry per distinct key, hence fewer). -/
theorem buildOptions_pairing_lastWriteWins (arr : List String)
    (heven : arr.length % 2 = 0) :
    (∀ k, optLookup (buildOptions arr) k =
        ((toPairs arr).reverse.find? (fun p => p.1 = k)).map Prod.snd) ∧
    (∀ j, 2 * j + 1 < arr.length →
        (toPairs arr).getD j ("", "") = (arr.getD (2 * j) "", arr.getD (2 * j + 1) "")) ∧
    ((pairKeys (toPairs arr)).Nodup → (buildOptions arr).length = arr.length / 2) := by
  have hb := buildOptions_eq_fold arr heven
  refine ⟨?_, ?_, ?_⟩
  · intro k
    rw [hb, optFold_lookup]
    cases hf : (toPairs arr).reverse.find? (fun p => decide (p.1 = k)) <;>
      simp [hf, optLookup]
  · exact fun j hj => toPairs_getD arr j hj
  · intro hnd
    rw [hb, optFold_length_nodup (toPairs arr) [] hnd (fun p _ => rfl)]
    simp [toPairs_length arr heven]

/-- Witness for C2 (amended): on `["a","1","a","2"]` the lookup of the
duplicated key `"a"` yields the value paired with its last occurrence. -/
theorem buildOptions_pairing_lastWriteWins_witness :
    optLookup (buildOptions ["a", "1", "a", "2"]) "a" = some "2" := by
  have h := (buildOptions_pairing_lastWriteWins ["a", "1", "a", "2"] (by decide)).1 "a"
  rw [h]
  decide

/-- C3 counterexample: releasing the same non-null handle twice performs the
native destroy/delete twice — for the endpoint free, the room-listener
release and the stats-listener release alike — because each operation is a
pure function of the handle value with no record of earlier frees; the
claimed "second release with the same already-freed handle value does not
double-free" fails already at handle value 1. -/
theorem double_release_repeats_destroy_counterexample :
    (freeNativeHandle 1 ++ freeNativeHandle 1).count FreeEvent.destroyEndpoint = 2 ∧
    ((InternalRoomListenerHandle_nativeRelease 1 newObserverAdapter).1 ++
      (InternalRoomListenerHandle_nativeRelease 1
        (InternalRoomListenerHandle_nativeRelease 1 newObserverAdapter).2).1).count
      ListenerEvent.deleteAdapter = 2 ∧
    ((InternalStatsListenerHandle_nativeRelease 1 newObserverAdapter).1 ++
      (InternalStatsListenerHandle_nativeRelease 1
        (InternalStatsListenerHandle_nativeRelease 1 newObserverAdapter).2).1).count
      ListenerEvent.deleteAdapter = 2 := by
  decide

/-- C3 (amended): a single release of a non-null created handle performs
exactly one native destroy/delete call for each create/release pair
(`createEndpoint`/`freeNativeHandle`, room-listener and stats-listener
`nativeCreate`/`nativeRelease`; `new` never returns the null handle, so
created handles satisfy the hypothesis); but the layer guards only against
null handles, keeping no record of earlier frees, so a second release with
the same non-null handle value repeats the destroy (a double free the caller
must avoid). -/
theorem release_single_destroy_null_guard_only (h : Nat) (hne : h ≠ 0) :
    (freeNativeHandle h).count FreeEvent.destroyEndpoint = 1 ∧
    (∀ a, (InternalRoomListenerHandle_nativeRelease h a).1.count
        ListenerEvent.deleteAdapter = 1) ∧
    (∀ a, (InternalStatsListenerHandle_nativeRelease h a).1.count
        ListenerEvent.deleteAdapter = 1) ∧
    (freeNativeHandle h ++ freeNativeHandle h).count FreeEvent.destroyEndpoint = 2 := by
  refine ⟨?_, fun a => ?_, fun a => ?_, ?_⟩ <;>
    simp [freeNativeHandle, InternalRoomListenerHandle_nativeRelease,
      InternalStatsListenerHandle_nativeRelease, hne, List.count_cons, List.count_append]

/-- Witness for C3 (amended): the concrete handle value 1. -/
theorem release_single_destroy_null_guard_only_witness :
    (freeNativeHandle 1).count FreeEvent.destroyEndpoint = 1 ∧
    (InternalRoomListenerHandle_nativeRelease 1 newObserverAdapter).1.count
      ListenerEvent.deleteAdapter = 1 ∧
    (InternalStatsListenerHandle_nativeRelease 1 newObserverAdapter).1.count
      ListenerEvent.deleteAdapter = 1 ∧
    (freeNativeHandle 1 ++ freeNativeHandle 1).count FreeEvent.destroyEndpoint = 2 := by
  obtain ⟨h1, h2, h3, h4⟩ := release_single_destroy_null_guard_only 1 (by decide)
  exact ⟨h1, h2 newObserverAdapter, h3 newObserverAdapter, h4⟩

/-- C4: every release/free operation — endpoint free, room release,
room-listener release, stats-listener release — called with the null (zero)
handle returns normally as a no-op: its event trace is empty (no native
destroy, reset or delete call) and the adapter state is untouched. -/
theorem null_handle_release_is_noop :
    freeNativeHandle 0 = [] ∧
    Room_nativeRelease 0 = [] ∧
    (∀ a, InternalRoomListenerHandle_nativeRelease 0 a = ([], a)) ∧
    (∀ a, InternalStatsListenerHandle_nativeRelease 0 a = ([], a)) :=
  ⟨rfl, rfl, fun _ => rfl, fun _ => rfl⟩

/-- Witness for C4: the listener releases instantiated at a concrete
adapter. -/
theorem null_handle_release_is_noop_witness :
    freeNativeHandle 0 = [] ∧
    Room_nativeRelease 0 = [] ∧
    InternalRoomListenerHandle_nativeRelease 0 newObserverAdapter = ([], newObserverAdapter) ∧
    InternalStatsListenerHandle_nativeRelease 0 newObserverAdapter = ([], newObserverAdapter) := by
  obtain ⟨h1, h2, h3, h4⟩ := null_handle_release_is_noop
  exact ⟨h1, h2, h3 newObserverAdapter, h4 newObserverAdapter⟩

/-- C5: for every room-listener or stats-listener release with a non-null
handle, the trace calls `setObserverDeleted` strictly before the adapter
`delete`, and on the adapter state as of the delete every later callback
dispatch finds the deleted mark set and does not call into the managed
listener. -/
theorem listener_release_marks_deleted_before_delete (h : Nat) (a : ObserverAdapter)
    (hne : h ≠ 0) :
    (InternalRoomListenerHandle_nativeRelease h a).1 =
      [ListenerEvent.setObserverDeletedCall, ListenerEvent.deleteAdapter] ∧
    dispatchCallback (InternalRoomListenerHandle_nativeRelease h a).2 = false ∧
    (InternalStatsListenerHandle_nativeRelease h a).1 =
      [ListenerEvent.setObserverDeletedCall, ListenerEvent.deleteAdapter] ∧
    dispatchCallback (InternalStatsListenerHandle_nativeRelease h a).2 = false := by
  simp [InternalRoomListenerHandle_nativeRelease, InternalStatsListenerHandle_nativeRelease,
    hne, dispatchCallback, setObserverDeleted]

/-- Witness for C5: handle value 1 on a fresh adapter. -/
theorem listener_release_marks_deleted_before_delete_witness :
    (InternalRoomListenerHandle_nativeRelease 1 newObserverAdapter).1 =
      [ListenerEvent.setObserverDeletedCall, ListenerEvent.deleteAdapter] ∧
    dispatchCallback (InternalRoomListenerHandle_nativeRelease 1 newObserverAdapter).2 = false ∧
    (InternalStatsListenerHandle_nativeRelease 1 newObserverAdapter).1 =
      [ListenerEvent.setObserverDeletedCall, ListenerEvent.deleteAdapter] ∧
    dispatchCallback (InternalStatsListenerHandle_nativeRelease 1 newObserverAdapter).2 = false :=
  listener_release_marks_deleted_before_delete 1 newObserverAdapter (by decide)

/-- C6: freeing a non-null endpoint handle asks the SDK singleton to destroy
the endpoint, then resets the shared-pointer handle, then frees the handle
object — all three steps in that order. -/
theorem freeNativeHandle_destroy_reset_delete_in_order (h : Nat) (hne : h ≠ 0) :
    freeNativeHandle h =
      [FreeEvent.destroyEndpoint, FreeEvent.resetSharedPtr, FreeEvent.deleteHandle] := by
  simp [freeNativeHandle, hne]

/-- Witness for C6: the concrete handle value 1. -/
theorem freeNativeHandle_destroy_reset_delete_in_order_witness :
    freeNativeHandle 1 =
      [FreeEvent.destroyEndpoint, FreeEvent.resetSharedPtr, FreeEvent.deleteHandle] :=
  freeNativeHandle_destroy_reset_delete_in_order 1 (by decide)

/-- C7 counterexample: a call with a null observer handle — a validation
failure, as the sentinel `0` return shows — still performs the
options-mapping construction step: the construction is the first event of the
trace, contradicting the claim that validation precedes construction and that
construction is skipped on validation failure. -/
theorem createEndpoint_constructs_options_despite_invalid_observer :
    (createEndpoint (some ⟨"token"⟩) ["opt", "val"] 0 7).1 = 0 ∧
    CreateEvent.optionsConstructed ∈ (createEndpoint (some ⟨"token"⟩) ["opt", "val"] 0 7).2 := by
  rw [createEndpoint_invalid_input (some ⟨"token"⟩) ["opt", "val"] 0 7 (Or.inl rfl)]
  simp

/-- C7 (amended): the options mapping is constructed from the flattened array
before the validation of the observer handle and the access-manager token:
construction is the first step of every call, and on a validation failure the
construction has nonetheless been performed (its result is discarded when the
function returns the sentinel `0`). -/
theorem createEndpoint_options_constructed_before_validation (mgr : Option AccessManager)
    (arr : List String) (obs fresh : Nat) :
    ((createEndpoint mgr arr obs fresh).2).head? = some CreateEvent.optionsConstructed ∧
    ((obs = 0 ∨ mgr = none ∨ (∃ am, mgr = some am ∧ am.token = "")) →
      createEndpoint mgr arr obs fresh = (0, [CreateEvent.optionsConstructed])) :=
  ⟨createEndpoint_trace_head mgr arr obs fresh,
   createEndpoint_invalid_input mgr arr obs fresh⟩

/-- Witness for C7 (amended): a concrete call failing validation on the empty
token. -/
theorem createEndpoint_options_constructed_before_validation_witness :
    ((createEndpoint (some ⟨""⟩) ["k", "v"] 3 9).2).head? =
      some CreateEvent.optionsConstructed ∧
    createEndpoint (some ⟨""⟩) ["k", "v"] 3 9 = (0, [CreateEvent.optionsConstructed]) := by
  obtain ⟨h1, h2⟩ := createEndpoint_options_constructed_before_validation
    (some ⟨""⟩) ["k", "v"] 3 9
  exact ⟨h1, h2 (Or.inr (Or.inr ⟨⟨""⟩, rfl, rfl⟩))⟩

/-- C8: calling `listen` with a valid (non-null) endpoint handle forwards to
the native register call with the two fixed boolean flags both `true`, and
returns normally with no failure signal (the entry point is `void`; `some`
is the normal return of the embedding). -/
theorem listen_forwards_register_both_flags_true (h : Nat) (hne : h ≠ 0) :
    ConversationsClientImpl_listen h = some [EndpointOp.registerEndpoint true true] := by
  unfold ConversationsClientImpl_listen
  rw [if_neg hne]

/-- Witness for C8: the concrete handle value 1. -/
theorem listen_forwards_register_both_flags_true_witness :
    ConversationsClientImpl_listen 1 = some [EndpointOp.registerEndpoint true true] :=
  listen_forwards_register_both_flags_true 1 (by decide)

/-- C9: for every option array of odd length the marshalling loop reads the
element at index equal to the array length — one past the last valid index —
while for arrays of even length every index it reads is in bounds, so even
length is exactly the unstated precondition keeping the loop in bounds. -/
theorem marshalLoop_odd_length_reads_out_of_bounds (arr : List String) :
    (arr.length % 2 = 1 → arr.length ∈ marshalReads arr) ∧
    (arr.length % 2 = 0 → ∀ j ∈ marshalReads arr, j < arr.length) := by
  constructor
  · intro hodd
    exact marshalLoop_reads_oob arr 0 [] (by omega) (by simpa using hodd)
  · intro heven
    exact marshalLoop_reads_lt arr 0 [] (by simpa using heven)

/-- Witness for C9: the odd-length array `["k"]`, whose loop reads index 1 =
length. -/
theorem marshalLoop_odd_length_reads_out_of_bounds_witness :
    ["k"].length ∈ marshalReads ["k"] :=
  (marshalLoop_odd_length_reads_out_of_bounds ["k"]).1 (by decide)

/-- C10: `nativeDisconnect` and `nativeGetStats` perform no null check and
dereference the room-context handle unconditionally — on the null handle they
hit undefined behaviour (`none`) rather than returning as a no-op, unlike
`Room.nativeRelease`, whose null branch returns with an empty trace — and
with a non-null room context both forward the expected native call, so a
non-null room context is a precondition of both. -/
theorem room_disconnect_getStats_unconditional_deref (h obs : Nat) (hne : h ≠ 0) :
    nativeDisconnect 0 = none ∧
    nativeGetStats 0 obs = none ∧
    nativeDisconnect h = some RoomOp.disconnect ∧
    nativeGetStats h obs = some (RoomOp.getStats obs) ∧
    Room_nativeRelease 0 = [] := by
  simp [nativeDisconnect, nativeGetStats, Room_nativeRelease, hne]

/-- Witness for C10: room handle 1, stats-observer handle 2. -/
theorem room_disconnect_getStats_unconditional_deref_witness :
    nativeDisconnect 0 = none ∧
    nativeGetStats 0 2 = none ∧
    nativeDisconnect 1 = some RoomOp.disconnect ∧
    nativeGetStats 1 2 = some (RoomOp.getStats 2) ∧
    Room_nativeRelease 0 = [] :=
  room_disconnect_getStats_unconditional_deref 1 2 (by decide)
